import Mathlib

/-!
Verification of the learning-analytics core.

A shallow embedding in Lean of the analytics subsystem of the backend
(embedding service, grading scorer, misconception clustering, skill
mastery aggregation, lesson recommendation, MCQ submission scoring),
together with theorems settling the specification claims about it.

Modelling conventions:
* Python floats are modelled as exact rationals (`ℚ`); `round(x, 3)` is
  modelled as exact decimal rounding on `ℚ`.
* Python strings are `String`; character-level operations (lowercasing,
  substring search, stripping) are carried out on the underlying
  character lists with ASCII semantics.
* Fallible external calls (the sentence-transformer model, the k-means
  solver) are abstract function parameters returning `Option`/`Except`;
  a `none`/`.error` result models a raised exception.
* Database query results are passed in as explicit lists of row records;
  SQL-level filters that the Python code expresses in the query are
  written as list filters.
-/

namespace K12

/-! ## Character/text helpers (Python `str` semantics, ASCII) -/

/-- `s.lower()` as a character list (ASCII case folding). -/
def lowerStr (s : String) : List Char := s.data.map Char.toLower

/-- `not s or not s.strip()`: the string is empty or whitespace-only. -/
def isBlank (s : String) : Bool := s.data.all Char.isWhitespace

/-- Python's substring test `p in s` on character lists. -/
def substrB (p s : List Char) : Bool := s.tails.any (fun t => p.isPrefixOf t)

/-- `s.strip()`: drop leading and trailing whitespace. -/
def trimChars (l : List Char) : List Char :=
  ((l.dropWhile Char.isWhitespace).reverse.dropWhile Char.isWhitespace).reverse

/-- Distinct elements of a list in first-occurrence order: the key order of a
Python `dict`/`defaultdict` populated by insertion. -/
def firstDedup {α : Type} [DecidableEq α] : List α → List α
  | [] => []
  | a :: l => a :: firstDedup (l.filter (fun x => decide (x ≠ a)))
termination_by l => l.length
decreasing_by
  simp only [List.length_cons]
  exact Nat.lt_succ_of_le (List.length_filter_le _ _)

/-- Python's `round(q, 3)`: rounding to three decimal places (the float
half-to-even tie rule is modelled as exact half-up rounding on `ℚ`;
no claim depends on the tie direction). -/
def round3 (q : ℚ) : ℚ := (⌊q * 1000 + 1 / 2⌋ : ℚ) / 1000

/-! ## Embedding Service (`app/services/embeddings.py`)

The sentence-transformer model is external: it is modelled as an abstract
record whose `encode` field stands for `model.encode` followed by the
L2-normalisation performed in `_embed_text_cached` (square roots are not
rational, so the normalised output is what the abstract field returns).
`_get_model` lazily constructs a process-wide singleton; a failed
construction raises.  The caller-visible state of that construction is an
`Option EmbModel`: `none` means `SentenceTransformer(...)` raises.  The
`functools.lru_cache` around `_embed_text_cached` is semantically
transparent for a pure function and is not modelled. -/

structure EmbModel where
  dim : ℕ
  encode : String → List ℚ

/-- `embed_text` (`embeddings.py`): empty/whitespace input still calls
`_get_model()` to obtain the dimension for the all-zero sentinel vector;
any input propagates a model-construction failure. -/
def embed_text (model : Option EmbModel) (text : String) : Except String (List ℚ) :=
  if isBlank text then
    match model with
    | none => .error "embedding model construction failed"
    | some m => .ok (List.replicate m.dim 0)
  else
    match model with
    | none => .error "embedding model construction failed"
    | some m => .ok (m.encode text)

/-! ## Grading Scorer (`app/services/grading.py`) -/

/-- Dot product of two vectors (`np.dot` on equal-length vectors). -/
def dot (a b : List ℚ) : ℚ := (List.zipWith (· * ·) a b).sum

/-- `cosine` (`grading.py`): dot product of L2-normalised vectors, result
forced into `[0, 1]`; empty input gives `0.0`. -/
def cosine (a b : List ℚ) : ℚ :=
  if a.length = 0 ∨ b.length = 0 then 0
  else max 0 (min 1 (dot a b))

/-- `keyword_coverage` (`grading.py`): ratio of keyword-list entries whose
lowercased text occurs in the lowercased answer; `0.0` if the answer or the
keyword list is empty.  Entries are not deduplicated. -/
def keyword_coverage (answer : String) (keywords : List String) : ℚ :=
  if answer.data = [] ∨ keywords = [] then 0
  else
    let answer_lower := lowerStr answer
    let keywords_lower := keywords.map lowerStr
    let matched := keywords_lower.filter (fun kw => substrB kw answer_lower)
    (matched.length : ℚ) / (keywords_lower.length : ℚ)

/-- The semantic-similarity step of `score_short_answer`: embed both texts
and take their `cosine`; if either embedding call raises, fall back to
`0.0` (the `try/except` block). -/
def semanticSim (emb : String → Except String (List ℚ)) (sa ma : String) : ℚ :=
  match emb sa, emb ma with
  | .ok u, .ok v => cosine u v
  | _, _ => 0

structure ScoreResult where
  score : ℚ
  confidence : ℚ
  explanation : String
  matched_keywords : List String
deriving Repr, DecidableEq

/-- `score_short_answer` (`grading.py`).  The Falcon feedback fields
(`enhanced_feedback`, `learning_tips`) come from an external generative
model, never influence `score`/`confidence`/`explanation`/
`matched_keywords`, and are omitted.  The local `explanation_parts`
list in the source is dead code (the final explanation is built directly
from `sim_level` and `matched_keywords`). -/
def score_short_answer (emb : String → Except String (List ℚ))
    (student_answer model_answer : String) (rubric_keywords : List String) : ScoreResult :=
  if isBlank student_answer then
    { score := 0
      confidence := 0
      explanation := "No answer provided."
      matched_keywords := [] }
  else
    let sim := semanticSim emb student_answer model_answer
    let kw_score := keyword_coverage student_answer rubric_keywords
    let matched_keywords := rubric_keywords.filter
      (fun kw => substrB (lowerStr kw) (lowerStr student_answer))
    let final_score := max 0 (min 1 (7 / 10 * sim + 3 / 10 * kw_score))
    let confidence := (sim + kw_score) / 2
    let sim_level := if sim ≥ 8 / 10 then "high" else if sim ≥ 6 / 10 then "medium" else "low"
    { score := final_score
      confidence := confidence
      explanation := "Answer shows " ++ sim_level ++ " similarity to expected response. Student "
        ++ (if matched_keywords.isEmpty then "lacks" else "demonstrates")
        ++ " understanding of "
        ++ (if matched_keywords.isEmpty then "key concepts"
            else String.intercalate ", " matched_keywords)
        ++ "."
      matched_keywords := matched_keywords }

/-- Modelled from the claim wording of C7, for comparison with the source
function `keyword_coverage`: the number of unique matched rubric keywords
(case-insensitive) divided by the number of rubric keywords. -/
def specKeywordCoverage (answer : String) (keywords : List String) : ℚ :=
  let matchedUnique := ((keywords.map lowerStr).filter
    (fun kw => substrB kw (lowerStr answer))).dedup
  (matchedUnique.length : ℚ) / (keywords.length : ℚ)

/-! ## Persistent data model (`app/db/models.py`)

Only the fields the analytics core reads.  `Question.skill_tags` is a JSON
column holding a list of tags (the defensive string-parse branch in
`progress.py` never fires for rows written through the ORM and is folded
into the `List String` field).  `Question.answer_key` stores JSON text; the
model carries the parsed value, with `none` covering both NULL and
unparseable JSON (`json.loads` raising). -/

structure Question where
  id : ℕ
  qtype : String
  prompt : String
  answer_key : Option String
  skill_tags : List String
deriving Repr, DecidableEq

structure Response where
  id : ℕ
  student_answer : String
  ai_score : Option ℚ
  teacher_score : Option ℚ
  ai_feedback : Option String
  teacher_feedback : Option String
deriving Repr, DecidableEq

/-- One row of the `Response ⋈ Question ⋈ Assignment (⋈ Submission)` joins
used by `progress.py`, `recommendations.py` and `insights.py`: one response
of the student together with its question and the class of the assignment.
Time-window filters expressed in SQL (`insights.py`) are assumed already
applied to the row list handed in. -/
structure Row where
  class_id : ℕ
  response : Response
  question : Question
  assignment_id : ℕ
  assignment_title : String
deriving Repr, DecidableEq

/-- The teacher-override precedence used verbatim in `insights.py` (lines
76/81/103) and `recommendations.py` (line 41):
`teacher_score if teacher_score is not None else ai_score`. -/
def effectiveScore (r : Response) : Option ℚ :=
  match r.teacher_score with
  | some t => some t
  | none => r.ai_score

/-- `PUT /responses/{response_id}/override` (`gradebook.py`): sets
`teacher_score`, optionally `teacher_feedback`; touches nothing else. -/
def override_response (r : Response) (teacher_score : ℚ)
    (teacher_feedback : Option String) : Response :=
  let r1 := { r with teacher_score := some teacher_score }
  match teacher_feedback with
  | some fb => { r1 with teacher_feedback := some fb }
  | none => r1

/-! ## Skill Mastery Aggregator (`app/services/progress.py`) -/

/-- The per-response score of `get_student_skill_mastery`: MCQ responses are
binarised at the `>= 1.0` threshold, short answers use the raw effective
score; the teacher override is consulted first in both branches. -/
def progressScore (q : Question) (r : Response) : Option ℚ :=
  if q.qtype = "mcq" then
    match r.teacher_score with
    | some t => some (if 1 ≤ t then 1 else 0)
    | none =>
      match r.ai_score with
      | some a => some (if 1 ≤ a then 1 else 0)
      | none => none
  else
    match r.teacher_score with
    | some t => some t
    | none => r.ai_score

structure Contribution where
  tag : String
  score : ℚ
deriving Repr, DecidableEq

/-- The `skill_data` contributions of `get_student_skill_mastery`: rows are
scoped to the class by the SQL filter, each scored response fans out to
every skill tag of its question, in row order. -/
def progressContribs (class_id : ℕ) (rows : List Row) : List Contribution :=
  (rows.filter (fun row => row.class_id = class_id)).flatMap (fun row =>
    match progressScore row.question row.response with
    | some s => row.question.skill_tags.map (fun t => ⟨t, s⟩)
    | none => [])

/-- The scores appended to one tag's `skill_data` bucket. -/
def tagBucket (contribs : List Contribution) (tag : String) : List ℚ :=
  (contribs.filter (fun c => c.tag = tag)).map (fun c => c.score)

structure SkillEntry where
  tag : String
  mastery : ℚ
  samples : ℕ
deriving Repr, DecidableEq

structure MasteryResult where
  skill_mastery : List SkillEntry
  overall_mastery_avg : ℚ
  total_responses : ℕ
  skills_analyzed : ℕ
deriving Repr, DecidableEq

/-- `get_student_skill_mastery` (`progress.py`): group contributions by tag
(insertion order), average and round each bucket, sort ascending by the
rounded mastery (Python's stable `list.sort`, modelled by `mergeSort`), and
average the concatenation of all buckets for `overall_mastery_avg`. -/
def get_student_skill_mastery (class_id : ℕ) (rows : List Row) : MasteryResult :=
  let contribs := progressContribs class_id rows
  let keys := firstDedup (contribs.map (fun c => c.tag))
  let entries := keys.map (fun t =>
    let scores := tagBucket contribs t
    SkillEntry.mk t (round3 (scores.sum / (scores.length : ℚ))) scores.length)
  let sorted := entries.mergeSort (fun a b => decide (a.mastery ≤ b.mastery))
  let all_scores := keys.flatMap (fun t => tagBucket contribs t)
  { skill_mastery := sorted
    overall_mastery_avg :=
      round3 (if all_scores.length = 0 then 0 else all_scores.sum / (all_scores.length : ℚ))
    total_responses := all_scores.length
    skills_analyzed := keys.length }

/-- The per-tag mastery value of §4.4 as the ranker would look it up: the
`mastery` field of the (unique) `skill_mastery` entry for the tag. -/
def progressMastery (class_id : ℕ) (rows : List Row) (tag : String) : Option ℚ :=
  ((get_student_skill_mastery class_id rows).skill_mastery.find?
    (fun e => e.tag = tag)).map (fun e => e.mastery)

/-! ## Recommendation Ranker (`app/services/recommendations.py`) -/

/-- The `skill_scores` contributions of `compute_skill_mastery`
(`recommendations.py`): every response of the student in ANY class, the
effective score divided by 100, no MCQ binarisation, questions without
skill tags skipped. -/
def recContribs (rows : List Row) : List Contribution :=
  rows.flatMap (fun row =>
    if row.question.skill_tags = [] then []
    else
      match effectiveScore row.response with
      | none => []
      | some s => row.question.skill_tags.map (fun t => ⟨t, s / 100⟩))

/-- `compute_skill_mastery` (`recommendations.py`), read as a map from tag
to mastery: `none` when the tag never received a contribution (absent dict
key). -/
def compute_skill_mastery (rows : List Row) (tag : String) : Option ℚ :=
  let scores := tagBucket (recContribs rows) tag
  if scores.length = 0 then none else some (scores.sum / (scores.length : ℚ))

structure Lesson where
  id : ℕ
  title : String
  content : String
  skill_tags : List String
  embedding : Option (List ℚ)
  created_at : ℕ
deriving Repr, DecidableEq

def vecAdd (a b : List ℚ) : List ℚ := List.zipWith (· + ·) a b

def vecScale (c : ℚ) (v : List ℚ) : List ℚ := v.map (c * ·)

/-- `np.mean(embeddings, axis=0)` for equal-dimension vectors. -/
def meanVec (vs : List (List ℚ)) : List ℚ :=
  match vs with
  | [] => []
  | v :: rest => vecScale (1 / (vs.length : ℚ)) (rest.foldl vecAdd v)

def isZeroVec (v : List ℚ) : Bool := v.all (fun x => x = 0)

/-- `get_recent_lesson_embeddings` (`recommendations.py`): mean embedding of
the `n` most recently created lessons of the class; a lesson's stored
embedding is used when present, otherwise `embed_text` of its content, with
a 384-dimensional zero vector on failure; the zero vector is also returned
when the class has no lessons. -/
def get_recent_lesson_embeddings (embedFn : String → Option (List ℚ))
    (lessons : List Lesson) (n : ℕ) : List ℚ :=
  let recent := (lessons.mergeSort (fun a b => decide (b.created_at ≤ a.created_at))).take n
  if recent.isEmpty then List.replicate 384 0
  else
    meanVec (recent.map (fun lesson =>
      match lesson.embedding with
      | some e => e
      | none =>
        match embedFn lesson.content with
        | some e => e
        | none => List.replicate 384 0))

structure Recommendation where
  lesson_id : ℕ
  title : String
  reason : String
  score : ℚ
  skill_tags : List String
deriving Repr, DecidableEq

/-- `rank_lessons_for_student` (`recommendations.py`): skill-weakness score
averaged over the lesson's tags (untracked tags count as mastery 0),
content-similarity score against the recent-lesson mean embedding (0 on a
zero vector on either side or an embedding failure), combined 60/40, sorted
descending (stable), top `k`. -/
def rank_lessons_for_student (embedFn : String → Option (List ℚ)) (rows : List Row)
    (lessons : List Lesson) (k : ℕ) : List Recommendation :=
  let recent_embedding := get_recent_lesson_embeddings embedFn lessons 3
  let scored := (lessons.filter (fun l => ¬ l.skill_tags.isEmpty)).map (fun lesson =>
    let skill_scores := lesson.skill_tags.map
      (fun t => 1 - (compute_skill_mastery rows t).getD 0)
    let skill_score :=
      if skill_scores.isEmpty then 0 else skill_scores.sum / (skill_scores.length : ℚ)
    let similarity_score :=
      match (match lesson.embedding with
             | some e => some e
             | none => embedFn lesson.content) with
      | some lesson_embedding =>
        if isZeroVec recent_embedding || isZeroVec lesson_embedding then 0
        else cosine recent_embedding lesson_embedding
      | none => 0
    let combined_score := 6 / 10 * skill_score + 4 / 10 * similarity_score
    let weakest_skills := lesson.skill_tags.filter
      (fun t => decide ((compute_skill_mastery rows t).getD 0 < 7 / 10))
    let reason :=
      if ¬ weakest_skills.isEmpty then
        "You struggled with " ++ String.intercalate ", " (weakest_skills.take 2)
          ++ "; this lesson covers similar concepts."
      else
        "This lesson covers " ++ String.intercalate ", " (lesson.skill_tags.take 2)
          ++ " which you\x27re learning."
    Recommendation.mk lesson.id lesson.title reason combined_score lesson.skill_tags)
  (scored.mergeSort (fun a b => decide (b.score ≤ a.score))).take k

structure RecResult where
  error : Option String
  student_id : ℕ
  class_id : ℕ
  recommendations : List Recommendation
deriving Repr, DecidableEq

/-- `get_student_recommendations` (`recommendations.py`): if the student is
not enrolled in the class, return an error payload with no recommendations;
otherwise rank the class lessons.  (`enrolled` is the outcome of the
enrollment query; metadata fields such as `class_name` are omitted.) -/
def get_student_recommendations (enrolled : Bool) (embedFn : String → Option (List ℚ))
    (student_id class_id : ℕ) (rows : List Row) (lessons : List Lesson) (k : ℕ) : RecResult :=
  if ¬ enrolled then
    { error := some "Student not enrolled in this class"
      student_id := student_id
      class_id := class_id
      recommendations := [] }
  else
    { error := none
      student_id := student_id
      class_id := class_id
      recommendations := rank_lessons_for_student embedFn rows lessons k }

/-! ## Misconception Clustering Engine (`app/services/insights.py`) -/

/-- `get_time_window` (`insights.py`): `"month"` maps to a trailing 30-day
window, anything else falls back to 7 days.  Wall-clock time is abstracted:
the function returns the window length in days, the only thing downstream
code depends on. -/
def get_time_window (period : String) : ℕ :=
  if period = "month" then 30 else 7

/-- The inclusion test of `get_low_scoring_responses`: incorrect MCQ
(effective score `< 1.0`) or short answer below the configured pass
threshold; unscored responses are excluded. -/
def includeResponse (thr : ℚ) (q : Question) (r : Response) : Bool :=
  if q.qtype = "mcq" then
    match effectiveScore r with
    | some s => decide (s < 1)
    | none => false
  else
    match effectiveScore r with
    | some s => decide (s < thr)
    | none => false

/-- `json.loads` applied to a double-quoted MCQ answer: strip the quotes.
(Escape-sequence decoding inside the literal is not modelled; the length
guard also covers `json.loads` raising on the one-character string `"`,
where the `except` clause keeps the original.) -/
def unquoteChars (l : List Char) : List Char :=
  if 2 ≤ l.length ∧ l.head? = some '"' ∧ l.getLast? = some '"' then
    (l.drop 1).dropLast
  else l

/-- One element of the dict list built by `get_low_scoring_responses`. -/
structure LowRow where
  response_id : ℕ
  question_id : ℕ
  assignment_id : ℕ
  student_answer : List Char
  question_type : String
  question_prompt : String
  skill_tags : List String
  score : Option ℚ
  assignment_title : String
deriving Repr, DecidableEq

/-- `get_low_scoring_responses` (`insights.py`): keep the qualifying rows
(class and time-window scoping is in the SQL and assumed applied to
`rows`), unquote JSON-serialised MCQ answers, and record the effective
score. -/
def get_low_scoring_responses (thr : ℚ) (rows : List Row) : List LowRow :=
  (rows.filter (fun row => includeResponse thr row.question row.response)).map (fun row =>
    { response_id := row.response.id
      question_id := row.question.id
      assignment_id := row.assignment_id
      student_answer :=
        if row.question.qtype = "mcq" then unquoteChars row.response.student_answer.data
        else row.response.student_answer.data
      question_type := row.question.qtype
      question_prompt := row.question.prompt
      skill_tags := row.question.skill_tags
      score := effectiveScore row.response
      assignment_title := row.assignment_title })

/-- `prepare_text_for_embedding` (`insights.py`): MCQ responses embed the
prompt concatenated with the (wrong) chosen option, short answers embed the
raw answer text. -/
def prepare_text_for_embedding (r : LowRow) : List Char :=
  if r.question_type = "mcq" then
    r.question_prompt.data ++ (" Wrong answer: ".data) ++ unquoteChars r.student_answer
  else r.student_answer

/-- Python's `\w` character class, ASCII range. -/
def isWordChar (c : Char) : Bool := c.isAlphanum || c = '_'

/-- The stop-word set of `extract_keywords`. -/
def stopWords : List (List Char) :=
  ["the".data, "a".data, "an".data, "and".data, "or".data, "but".data, "in".data,
   "on".data, "at".data, "to".data, "for".data, "of".data, "with".data, "by".data,
   "is".data, "are".data, "was".data, "were".data, "be".data, "been".data,
   "have".data, "has".data, "had".data, "do".data, "does".data, "did".data,
   "will".data, "would".data, "could".data, "should".data, "may".data,
   "might".data, "can".data, "this".data, "that".data, "these".data,
   "those".data, "i".data, "you".data, "he".data, "she".data, "it".data,
   "we".data, "they".data, "me".data, "him".data, "her".data, "us".data,
   "them".data]

/-- Python `text.split()`: split on whitespace runs, dropping empty pieces.
The accumulator carries the current word reversed. -/
def splitWords : List Char → List Char → List (List Char)
  | [], acc => if acc.isEmpty then [] else [acc.reverse]
  | c :: rest, acc =>
    if c.isWhitespace then
      if acc.isEmpty then splitWords rest [] else acc.reverse :: splitWords rest []
    else splitWords rest (c :: acc)

/-- `collections.Counter(l).most_common(k)` (keys only): distinct elements
in first-insertion order, stably sorted by descending count, first `k`. -/
def mostCommon {α : Type} [DecidableEq α] (l : List α) (k : ℕ) : List α :=
  ((firstDedup l).mergeSort (fun a b => decide (l.count b ≤ l.count a))).take k

/-- `extract_keywords` (`insights.py`): lowercase, replace non-word
punctuation by spaces, split, drop stop words and words of length ≤ 2,
return the `top_k` most frequent remaining words. -/
def extract_keywords (text : List Char) (top_k : ℕ) : List (List Char) :=
  if (trimChars text).length < 3 then []
  else
    let cleaned := (text.map Char.toLower).map
      (fun c => if isWordChar c || c.isWhitespace then c else ' ')
    let words := splitWords cleaned []
    let filtered := words.filter (fun w => 2 < w.length ∧ w ∉ stopWords)
    if filtered.isEmpty then [] else mostCommon filtered top_k

/-- `' '.join`-style concatenation with a separator. -/
def joinWith (sep : List Char) : List (List Char) → List Char
  | [] => []
  | [x] => x
  | x :: y :: xs => x ++ sep ++ joinWith sep (y :: xs)

structure ClusterExample where
  student_answer : List Char
  question_prompt : String
  score : Option ℚ
  assignment_title : String
deriving Repr, DecidableEq

structure Cluster where
  label : List Char
  examples : List ClusterExample
  suggested_skill_tags : List String
  cluster_size : ℕ
  common_keywords : List (List Char)
deriving Repr, DecidableEq

/-- The per-cluster post-processing of `cluster_responses`: ≤ 2
representative examples in insertion order, top-3 frequent keywords over
the joined member answers, top-3 frequent member skill tags, and a label
derived from the keywords (numbered fallback). -/
def buildCluster (cid : ℕ) (members : List LowRow) : Cluster :=
  let examples := members.take 2
  let all_text := joinWith [' '] (members.map (fun m => m.student_answer))
  let common_keywords := extract_keywords all_text 3
  let all_skill_tags := members.flatMap (fun m => m.skill_tags)
  let suggested_skill_tags := mostCommon all_skill_tags 3
  let label :=
    if ¬ common_keywords.isEmpty then
      "Misconception: ".data ++ joinWith (", ".data) (common_keywords.take 2)
    else
      "Misconception Cluster ".data ++ (Nat.repr (cid + 1)).data
  { label := label
    examples := examples.map (fun m =>
      ⟨m.student_answer, m.question_prompt, m.score, m.assignment_title⟩)
    suggested_skill_tags := suggested_skill_tags
    cluster_size := members.length
    common_keywords := common_keywords }

/-- The cluster-count rule of `cluster_responses` (line 209):
`n_clusters = min(3, max(1, len(embeddings) // 3))`. -/
def chooseK (n : ℕ) : ℕ := min 3 (max 1 (n / 3))

/-- The embeddable responses with their vectors: responses whose
`embed_text` call raises are skipped. -/
def validPairs (embedFn : List Char → Option (List ℚ)) (responses : List LowRow) :
    List (LowRow × List ℚ) :=
  responses.filterMap (fun r =>
    (embedFn (prepare_text_for_embedding r)).map (fun e => (r, e)))

/-- `cluster_responses` (`insights.py`).  The k-means solver is external and
abstracted as `kmeansFn seed n_clusters vectors`, returning one label per
vector or `none` when the solver raises (`n_init=10` is a solver constant
folded into the abstraction); the source fixes `random_state=42`.  A solver
failure yields `[]` instead of an exception; label groups are processed in
first-occurrence order (Python dict insertion order). -/
def cluster_responses (embedFn : List Char → Option (List ℚ))
    (kmeansFn : ℕ → ℕ → List (List ℚ) → Option (List ℕ))
    (responses : List LowRow) : List Cluster :=
  if responses.length < 3 then []
  else
    let pairs := validPairs embedFn responses
    if pairs.length < 3 then []
    else
      let n_clusters := chooseK pairs.length
      match kmeansFn 42 n_clusters (pairs.map (fun p => p.2)) with
      | none => []
      | some labels =>
        let tagged := (pairs.map (fun p => p.1)).zip labels
        let keys := firstDedup (tagged.map (fun p => p.2))
        keys.map (fun cid =>
          buildCluster cid ((tagged.filter (fun p => p.2 = cid)).map (fun p => p.1)))

structure InsightsResult where
  class_id : ℕ
  period : String
  window_days : ℕ
  total_items : ℕ
  clusters : List Cluster
  message : Option String
deriving Repr, DecidableEq

/-- `get_misconception_insights` (`insights.py`): fewer than 3 qualifying
responses is not an error — it returns empty clusters, the actual count and
an explanatory message; otherwise the clusters are computed.  (`class_name`
and the static `analysis_summary` metadata are omitted.) -/
def get_misconception_insights (embedFn : List Char → Option (List ℚ))
    (kmeansFn : ℕ → ℕ → List (List ℚ) → Option (List ℕ))
    (thr : ℚ) (class_id : ℕ) (period : String) (rows : List Row) : InsightsResult :=
  let low := get_low_scoring_responses thr rows
  if low.length < 3 then
    { class_id := class_id
      period := period
      window_days := get_time_window period
      total_items := low.length
      clusters := []
      message :=
        some "Not enough data for misconception analysis. Need at least 3 low-scoring responses." }
  else
    { class_id := class_id
      period := period
      window_days := get_time_window period
      total_items := low.length
      clusters := cluster_responses embedFn kmeansFn low
      message := none }

/-! ## Web-layer validation (`app/api/routes/insights.py`) -/

structure HTTPError where
  status : ℕ
  detail : String
deriving Repr, DecidableEq

/-- The guard chain of `get_misconception_insights_api` (`routes/insights.py`):
teacher-role check (403), class ownership check (404), then period
validation (422) before the service is invoked.  (The final `try/except`
that converts service exceptions into HTTP 500 is not reachable in this
model, the service being total.) -/
def get_misconception_insights_api (role : String) (ownsClass : Bool) (period : String)
    (insights : InsightsResult) : Except HTTPError InsightsResult :=
  if role ≠ "teacher" then
    .error ⟨403, "Only teachers can access misconception insights"⟩
  else if ¬ ownsClass then
    .error ⟨404, "Class not found or access denied"⟩
  else if ¬ (period = "week" ∨ period = "month") then
    .error ⟨422, "Period must be \x27week\x27 or \x27month\x27"⟩
  else
    .ok insights

/-! ## MCQ submission scoring (`app/api/routes/assignments.py`) -/

/-- The per-answer auto-grading of `submit_assignment`: an MCQ with a
parseable answer key scores 100.0 on exact (unnormalised) equality of the
submitted answer with the key and 0.0 otherwise; MCQs without a key and
short answers are left unscored (`ai_score` stays NULL). -/
def gradeMcqAnswer (q : Question) (answer : String) : Option ℚ :=
  if q.qtype = "mcq" then
    match q.answer_key with
    | some key => some (if answer = key then 100 else 0)
    | none => none
  else none

structure AnswerItem where
  question : Question
  answer : String
deriving Repr, DecidableEq

/-- The accumulation loop of `submit_assignment`: per-response `ai_score`
values in input order together with `total_score` and `scored_questions`. -/
def submitCore : List AnswerItem → List (Option ℚ) × ℚ × ℕ
  | [] => ([], 0, 0)
  | item :: rest =>
    let r := gradeMcqAnswer item.question item.answer
    let (rs, t, c) := submitCore rest
    match r with
    | some s => (r :: rs, t + s, c + 1)
    | none => (r :: rs, t, c)

structure SubmitResult where
  response_scores : List (Option ℚ)
  submission_ai_score : Option ℚ
deriving Repr, DecidableEq

/-- `submit_assignment` (`routes/assignments.py`), scoring part: the
submission-level `ai_score` is `total_score / scored_questions` when at
least one MCQ was scored, NULL otherwise. -/
def submit_assignment (items : List AnswerItem) : SubmitResult :=
  let (rs, total_score, scored_questions) := submitCore items
  { response_scores := rs
    submission_ai_score :=
      if 0 < scored_questions then some (total_score / (scored_questions : ℚ)) else none }

/-- Modelled from the claim wording of C2, for comparison: case/whitespace
normalisation of an MCQ option. -/
def specNormalize (s : String) : List Char := (trimChars s.data).map Char.toLower

/-! ## Helper lemmas -/

lemma cosine_nonneg (a b : List ℚ) : 0 ≤ cosine a b := by
  unfold cosine
  split
  · exact le_refl 0
  · exact le_max_left 0 _

lemma cosine_le_one (a b : List ℚ) : cosine a b ≤ 1 := by
  unfold cosine
  split
  · norm_num
  · exact max_le (by norm_num) (min_le_left _ _)

lemma semanticSim_nonneg (emb : String → Except String (List ℚ)) (sa ma : String) :
    0 ≤ semanticSim emb sa ma := by
  unfold semanticSim
  cases emb sa <;> cases emb ma <;> simp [cosine_nonneg]

lemma semanticSim_le_one (emb : String → Except String (List ℚ)) (sa ma : String) :
    semanticSim emb sa ma ≤ 1 := by
  unfold semanticSim
  cases emb sa <;> cases emb ma <;> simp [cosine_le_one]

lemma keyword_coverage_nonneg (answer : String) (kws : List String) :
    0 ≤ keyword_coverage answer kws := by
  unfold keyword_coverage
  split
  · exact le_refl 0
  · positivity

lemma keyword_coverage_le_one (answer : String) (kws : List String) :
    keyword_coverage answer kws ≤ 1 := by
  unfold keyword_coverage
  split
  · norm_num
  · next h =>
    push_neg at h
    have hk : kws ≠ [] := h.2
    have hlen : 0 < ((kws.map lowerStr).length : ℚ) := by
      have : 0 < (kws.map lowerStr).length := by
        simpa [List.length_map] using List.length_pos.mpr hk
      exact_mod_cast this
    rw [div_le_one hlen]
    exact_mod_cast List.length_filter_le _ _

/-! ## Claim theorems -/

/-- C1: for every input, the grading scorer returns
`final_score = clip(0.7*semantic + 0.3*keyword_coverage, 0, 1)` and
`confidence = (semantic + keyword_coverage) / 2`, both always in `[0, 1]`,
and the empty/whitespace-answer branch returns `0.0` for both. -/
theorem C1_short_answer_score_formula (emb : String → Except String (List ℚ))
    (sa ma : String) (kws : List String) :
    (isBlank sa = true →
      (score_short_answer emb sa ma kws).score = 0 ∧
      (score_short_answer emb sa ma kws).confidence = 0) ∧
    (isBlank sa = false →
      (score_short_answer emb sa ma kws).score =
        max 0 (min 1 (7 / 10 * semanticSim emb sa ma + 3 / 10 * keyword_coverage sa kws)) ∧
      (score_short_answer emb sa ma kws).confidence =
        (semanticSim emb sa ma + keyword_coverage sa kws) / 2) ∧
    0 ≤ (score_short_answer emb sa ma kws).score ∧
    (score_short_answer emb sa ma kws).score ≤ 1 ∧
    0 ≤ (score_short_answer emb sa ma kws).confidence ∧
    (score_short_answer emb sa ma kws).confidence ≤ 1 := by
  have hs0 := semanticSim_nonneg emb sa ma
  have hs1 := semanticSim_le_one emb sa ma
  have hk0 := keyword_coverage_nonneg sa kws
  have hk1 := keyword_coverage_le_one sa kws
  by_cases hb : isBlank sa
  · refine ⟨fun _ => ?_, fun hfalse => absurd hb (by simp [hfalse]), ?_⟩
    · constructor <;> simp [score_short_answer, hb]
    · constructor
      · simp [score_short_answer, hb]
      constructor
      · simp [score_short_answer, hb]
      constructor <;> simp [score_short_answer, hb]
  · have hb' : isBlank sa = false := by simpa using hb
    have hscore : (score_short_answer emb sa ma kws).score =
        max 0 (min 1 (7 / 10 * semanticSim emb sa ma + 3 / 10 * keyword_coverage sa kws)) := by
      simp [score_short_answer, hb']
    have hconf : (score_short_answer emb sa ma kws).confidence =
        (semanticSim emb sa ma + keyword_coverage sa kws) / 2 := by
      simp [score_short_answer, hb']
    refine ⟨fun htrue => absurd htrue (by simp [hb']), fun _ => ⟨hscore, hconf⟩, ?_, ?_, ?_, ?_⟩
    · rw [hscore]; exact le_max_left 0 _
    · rw [hscore]; exact max_le (by norm_num) (min_le_left _ _)
    · rw [hconf]; linarith
    · rw [hconf]; linarith

/-- A concrete embedding function for witnesses. -/
def embW : String → Except String (List ℚ) := fun _ => .ok [1]

theorem C1_short_answer_score_formula_witness :
    isBlank " " = true ∧
    (score_short_answer embW " " "model" ["k"]).score = 0 ∧
    (score_short_answer embW " " "model" ["k"]).confidence = 0 ∧
    isBlank "hi" = false ∧
    (score_short_answer embW "hi" "model" ["hi"]).confidence =
      (semanticSim embW "hi" "model" + keyword_coverage "hi" ["hi"]) / 2 :=
  ⟨by decide,
   ((C1_short_answer_score_formula embW " " "model" ["k"]).1 (by decide)).1,
   ((C1_short_answer_score_formula embW " " "model" ["k"]).1 (by decide)).2,
   by decide,
   (((C1_short_answer_score_formula embW "hi" "model" ["hi"]).2.1 (by decide))).2⟩

/-- C7, counterexample: the source counts every keyword-list entry that
matches, without deduplication; with the list `["A", "a"]` (both entries
lowercase to `"a"`) and answer `"a"` the code returns `2/2 = 1`, while the
claimed `|unique matched| / |keywords|` is `1/2`. -/
theorem C7_counterexample :
    keyword_coverage "a" ["A", "a"] = 1 ∧
    specKeywordCoverage "a" ["A", "a"] = 1 / 2 ∧
    keyword_coverage "a" ["A", "a"] ≠ specKeywordCoverage "a" ["A", "a"] := by
  have h1 : keyword_coverage "a" ["A", "a"] = 1 := by
    simp [keyword_coverage, lowerStr, substrB]
  have h2 : specKeywordCoverage "a" ["A", "a"] = 1 / 2 := by
    simp [specKeywordCoverage, lowerStr, substrB]
  exact ⟨h1, h2, by rw [h1, h2]; norm_num⟩

/-- C7 (amended): `keyword_coverage` equals the number of keyword-list
entries whose lowercased text occurs as a case-insensitive substring of the
answer divided by the list length, with entries NOT deduplicated, and is
`0.0` for an empty keyword list (or an empty answer); when the lowercased
keyword list has no duplicate entries and the answer is non-empty, this
coincides with the claimed unique-matched formula. -/
theorem C7_keyword_coverage_unique (answer : String) (kws : List String)
    (hnd : (kws.map lowerStr).Nodup) (ha : answer.data ≠ []) :
    keyword_coverage answer kws = specKeywordCoverage answer kws ∧
    keyword_coverage answer [] = 0 := by
  refine ⟨?_, by simp [keyword_coverage]⟩
  by_cases hk : kws = []
  · subst hk
    simp [keyword_coverage, specKeywordCoverage]
  · unfold keyword_coverage specKeywordCoverage
    rw [if_neg (by simp [ha, hk])]
    have hmatched : ((kws.map lowerStr).filter
        (fun kw => substrB kw (lowerStr answer))).dedup =
        (kws.map lowerStr).filter (fun kw => substrB kw (lowerStr answer)) :=
      List.dedup_eq_self.mpr (List.Nodup.filter _ hnd)
    simp only [hmatched, List.length_map]

theorem C7_keyword_coverage_unique_witness :
    ((["isolate", "variable"].map lowerStr).Nodup ∧ "x".data ≠ []) ∧
    keyword_coverage "x" ["isolate", "variable"] =
      specKeywordCoverage "x" ["isolate", "variable"] :=
  ⟨⟨by decide, by decide⟩,
   (C7_keyword_coverage_unique "x" ["isolate", "variable"] (by decide) (by decide)).1⟩

/-- C10: for empty or whitespace-only input, `embed_text` still consults
the lazily-constructed model before returning the all-zero sentinel: when
model construction fails the call fails too, and otherwise the returned
zero vector has the model's dimension. -/
theorem C10_empty_input_constructs_model (model : Option EmbModel) (text : String)
    (h : isBlank text = true) :
    (model = none → ∃ e, embed_text model text = .error e) ∧
    (∀ m, model = some m → embed_text model text = .ok (List.replicate m.dim 0)) := by
  constructor
  · rintro rfl
    exact ⟨"embedding model construction failed", by simp [embed_text, h]⟩
  · rintro m rfl
    simp [embed_text, h]

theorem C10_empty_input_constructs_model_witness :
    isBlank "  " = true ∧
    embed_text (some ⟨2, fun _ => [1]⟩) "  " = .ok [0, 0] ∧
    (∃ e, embed_text (none : Option EmbModel) "  " = .error e) :=
  ⟨by decide,
   by simpa using
     (C10_empty_input_constructs_model (some ⟨2, fun _ => [1]⟩) "  " (by decide)).2
       ⟨2, fun _ => [1]⟩ rfl,
   (C10_empty_input_constructs_model (none : Option EmbModel) "  " (by decide)).1 rfl⟩

/-- C6: with fewer than 3 qualifying low-scoring responses the
misconception analysis returns empty clusters, a non-empty explanatory
message and `total_items` equal to the actual qualifying count; the
function is total, so no exception is raised. -/
theorem C6_insufficient_data (embedFn : List Char → Option (List ℚ))
    (kmeansFn : ℕ → ℕ → List (List ℚ) → Option (List ℕ))
    (thr : ℚ) (class_id : ℕ) (period : String) (rows : List Row)
    (h : (get_low_scoring_responses thr rows).length < 3) :
    (get_misconception_insights embedFn kmeansFn thr class_id period rows).clusters = [] ∧
    (get_misconception_insights embedFn kmeansFn thr class_id period rows).total_items =
      (get_low_scoring_responses thr rows).length ∧
    ∃ m, (get_misconception_insights embedFn kmeansFn thr class_id period rows).message =
      some m ∧ m ≠ "" := by
  refine ⟨?_, ?_, ?_⟩
  · simp [get_misconception_insights, if_pos h]
  · simp [get_misconception_insights, if_pos h]
  · refine ⟨"Not enough data for misconception analysis. Need at least 3 low-scoring responses.",
      ?_, by decide⟩
    simp [get_misconception_insights, if_pos h]

theorem C6_insufficient_data_witness :
    (get_low_scoring_responses (7 / 10) []).length < 3 ∧
    (get_misconception_insights (fun _ => none) (fun _ _ _ => none)
      (7 / 10) 1 "week" []).clusters = [] ∧
    (get_misconception_insights (fun _ => none) (fun _ _ _ => none)
      (7 / 10) 1 "week" []).total_items = (get_low_scoring_responses (7 / 10) []).length :=
  ⟨by simp [get_low_scoring_responses],
   (C6_insufficient_data (fun _ => none) (fun _ _ _ => none) (7 / 10) 1 "week" []
     (by simp [get_low_scoring_responses])).1,
   (C6_insufficient_data (fun _ => none) (fun _ _ _ => none) (7 / 10) 1 "week" []
     (by simp [get_low_scoring_responses])).2.1⟩

/-- C9: invalid parameters surface as validation failures — an
unrecognised time period is rejected with HTTP 422 by the misconception
API before the analysis runs, and a non-enrolled student makes the
recommendation operation return an error payload with no recommendations
instead of proceeding with a default. -/
theorem C9_invalid_parameters (role : String) (ownsClass : Bool) (period : String)
    (ins : InsightsResult)
    (hrole : role = "teacher") (hown : ownsClass = true)
    (hweek : period ≠ "week") (hmonth : period ≠ "month")
    (embedFn : String → Option (List ℚ)) (student_id class_id : ℕ)
    (rows : List Row) (lessons : List Lesson) (k : ℕ) :
    (∃ e, get_misconception_insights_api role ownsClass period ins = .error e ∧
      e.status = 422 ∧ e.detail ≠ "") ∧
    (get_student_recommendations false embedFn student_id class_id rows lessons k).error =
      some "Student not enrolled in this class" ∧
    (get_student_recommendations false embedFn student_id class_id rows lessons k
      ).recommendations = [] := by
  subst hrole hown
  refine ⟨⟨⟨422, "Period must be \x27week\x27 or \x27month\x27"⟩, ?_, rfl, by decide⟩, ?_, ?_⟩
  · simp [get_misconception_insights_api, hweek, hmonth]
  · simp [get_student_recommendations]
  · simp [get_student_recommendations]

theorem C9_invalid_parameters_witness :
    ("teacher" = "teacher" ∧ "year" ≠ "week" ∧ "year" ≠ "month") ∧
    (∃ e, get_misconception_insights_api "teacher" true "year" ⟨1, "year", 7, 0, [], none⟩ =
      .error e ∧ e.status = 422 ∧ e.detail ≠ "") ∧
    (get_student_recommendations false (fun _ => none) 1 1 [] [] 3).recommendations = [] :=
  ⟨⟨rfl, by decide, by decide⟩,
   (C9_invalid_parameters "teacher" true "year" ⟨1, "year", 7, 0, [], none⟩ rfl rfl
     (by decide) (by decide) (fun _ => none) 1 1 [] [] 3).1,
   (C9_invalid_parameters "teacher" true "year" ⟨1, "year", 7, 0, [], none⟩ rfl rfl
     (by decide) (by decide) (fun _ => none) 1 1 [] [] 3).2.2⟩

/-- C4: when a teacher override score is set, the effective score used by
misconception clustering (`includeResponse` and the recorded score),
mastery aggregation (`progressScore`) and recommendation mastery
(`effectiveScore`) is the override, independent of the automated score;
and the override endpoint never touches `ai_score`. -/
theorem C4_override_precedence (thr : ℚ) (q : Question) (r : Response) (t : ℚ)
    (h : r.teacher_score = some t) (a : Option ℚ) :
    effectiveScore r = some t ∧
    effectiveScore { r with ai_score := a } = effectiveScore r ∧
    progressScore q { r with ai_score := a } = progressScore q r ∧
    includeResponse thr q { r with ai_score := a } = includeResponse thr q r ∧
    (∀ (r2 : Response) (t2 : ℚ) (fb : Option String),
      (override_response r2 t2 fb).ai_score = r2.ai_score ∧
      (override_response r2 t2 fb).teacher_score = some t2) := by
  refine ⟨?_, ?_, ?_, ?_, ?_⟩
  · simp [effectiveScore, h]
  · simp [effectiveScore, h]
  · simp [progressScore, h]
  · simp [includeResponse, effectiveScore, h]
  · intro r2 t2 fb
    cases fb <;> simp [override_response]

theorem C4_override_precedence_witness :
    (Response.mk 1 "ans" (some 90) (some 40) none none).teacher_score = some 40 ∧
    effectiveScore (Response.mk 1 "ans" (some 90) (some 40) none none) = some 40 ∧
    (override_response (Response.mk 1 "ans" (some 90) none none none) 55 none).ai_score =
      some 90 :=
  ⟨rfl,
   (C4_override_precedence (7 / 10) ⟨1, "short", "p", none, []⟩
     (Response.mk 1 "ans" (some 90) (some 40) none none) 40 rfl none).1,
   ((C4_override_precedence (7 / 10) ⟨1, "short", "p", none, []⟩
     (Response.mk 1 "ans" (some 90) (some 40) none none) 40 rfl none).2.2.2.2
     (Response.mk 1 "ans" (some 90) none none none) 55 none).1⟩

/-- C2, counterexample: the submission route compares the submitted option
with the answer key by plain equality (`student_answer == answer_key`),
without case/whitespace normalisation, and scores on a 0–100 scale:
submitting `"a"` against key `"A"` scores `0.0` even though the two are
equal after normalisation, where the claim requires full credit. -/
theorem C2_counterexample :
    (submit_assignment [⟨⟨1, "mcq", "p", some "A", []⟩, "a"⟩]).response_scores = [some 0] ∧
    specNormalize "a" = specNormalize "A" ∧
    (submit_assignment [⟨⟨1, "mcq", "p", some "A", []⟩, "a"⟩]).submission_ai_score = some 0 ∧
    (submit_assignment [⟨⟨1, "mcq", "Q", some "B", []⟩, "B"⟩]).response_scores =
      [some 100] := by
  refine ⟨?_, by decide, ?_, ?_⟩
  · simp [submit_assignment, submitCore, gradeMcqAnswer]
  · simp [submit_assignment, submitCore, gradeMcqAnswer]
  · simp [submit_assignment, submitCore, gradeMcqAnswer]

lemma submitCore_eq (items : List AnswerItem) :
    submitCore items =
      (items.map (fun it => gradeMcqAnswer it.question it.answer),
       (items.filterMap (fun it => gradeMcqAnswer it.question it.answer)).sum,
       (items.filterMap (fun it => gradeMcqAnswer it.question it.answer)).length) := by
  induction items with
  | nil => rfl
  | cons it rest ih =>
    simp only [submitCore, ih, List.map_cons, List.filterMap_cons]
    cases h : gradeMcqAnswer it.question it.answer with
    | none => simp [h]
    | some s => simp [h, add_comm]

/-- C2 (amended): at submission time an MCQ response with a parseable
answer key scores `100.0` on exact, unnormalised string equality with the
key and `0.0` otherwise (per-response scores on the 0–100 convention);
short-answer responses and MCQs without a key stay unscored; the
submission-level automated score is the mean over the scored MCQ responses
and is absent when there are none. -/
theorem C2_mcq_submission_scoring (items : List AnswerItem) :
    (submit_assignment items).response_scores =
      items.map (fun it => gradeMcqAnswer it.question it.answer) ∧
    (submit_assignment items).submission_ai_score =
      (if (items.filterMap (fun it => gradeMcqAnswer it.question it.answer)).isEmpty then none
       else some ((items.filterMap (fun it => gradeMcqAnswer it.question it.answer)).sum /
         (((items.filterMap (fun it => gradeMcqAnswer it.question it.answer)).length : ℚ)))) ∧
    (∀ q ans key, q.qtype = "mcq" → q.answer_key = some key →
      gradeMcqAnswer q ans = some (if ans = key then 100 else 0)) ∧
    (∀ q ans, q.qtype ≠ "mcq" → gradeMcqAnswer q ans = none) := by
  refine ⟨?_, ?_, ?_, ?_⟩
  · simp [submit_assignment, submitCore_eq]
  · simp only [submit_assignment, submitCore_eq]
    rcases hs : items.filterMap (fun it => gradeMcqAnswer it.question it.answer) with _ | ⟨x, xs⟩
    · simp [hs]
    · simp [hs]
  · intro q ans key hq hkey
    simp [gradeMcqAnswer, hq, hkey]
  · intro q ans hq
    simp [gradeMcqAnswer, hq]

theorem C2_mcq_submission_scoring_witness :
    gradeMcqAnswer ⟨1, "mcq", "Q", some "B", []⟩ "B" = some 100 ∧
    gradeMcqAnswer ⟨2, "short", "Q", none, []⟩ "B" = none := by
  constructor
  · have h := (C2_mcq_submission_scoring []).2.2.1 ⟨1, "mcq", "Q", some "B", []⟩ "B" "B"
      rfl rfl
    simpa using h
  · exact (C2_mcq_submission_scoring []).2.2.2 ⟨2, "short", "Q", none, []⟩ "B" (by decide)

/-- C8: with at least 3 embeddable qualifying responses, the clustering
engine picks `k = min(3, max(1, n // 3))` clusters, its result depends on
the external k-means solver only through the single call with the fixed
seed 42 and that `k`, and a solver failure yields empty clusters instead
of an exception. -/
theorem C8_cluster_count_and_failure (embedFn : List Char → Option (List ℚ))
    (km1 km2 : ℕ → ℕ → List (List ℚ) → Option (List ℕ)) (responses : List LowRow)
    (h3 : 3 ≤ (validPairs embedFn responses).length)
    (hagree : km1 42 (chooseK (validPairs embedFn responses).length)
        ((validPairs embedFn responses).map (fun p => p.2)) =
      km2 42 (chooseK (validPairs embedFn responses).length)
        ((validPairs embedFn responses).map (fun p => p.2))) :
    chooseK (validPairs embedFn responses).length =
      min 3 (max 1 ((validPairs embedFn responses).length / 3)) ∧
    cluster_responses embedFn km1 responses = cluster_responses embedFn km2 responses ∧
    (km1 42 (chooseK (validPairs embedFn responses).length)
        ((validPairs embedFn responses).map (fun p => p.2)) = none →
      cluster_responses embedFn km1 responses = []) := by
  have hle : (validPairs embedFn responses).length ≤ responses.length :=
    List.length_filterMap_le _ _
  have hr : ¬ responses.length < 3 := by omega
  have hp : ¬ (validPairs embedFn responses).length < 3 := by omega
  refine ⟨rfl, ?_, ?_⟩
  · simp only [cluster_responses, if_neg hr, if_neg hp, hagree]
  · intro hnone
    simp only [cluster_responses, if_neg hr, if_neg hp, hnone]

/-- Concrete qualifying rows for the C8 witness. -/
def lowRowW (n : ℕ) : LowRow :=
  ⟨n, n, n, "x".data, "short", "p", [], some 0, "A"⟩

theorem C8_cluster_count_and_failure_witness :
    3 ≤ (validPairs (fun _ => some []) [lowRowW 1, lowRowW 2, lowRowW 3]).length ∧
    chooseK (validPairs (fun _ => some []) [lowRowW 1, lowRowW 2, lowRowW 3]).length = 1 ∧
    cluster_responses (fun _ => some []) (fun _ _ _ => none)
      [lowRowW 1, lowRowW 2, lowRowW 3] = [] := by
  refine ⟨by decide, by decide, ?_⟩
  exact (C8_cluster_count_and_failure (fun _ => some []) (fun _ _ _ => none)
    (fun _ _ _ => none) [lowRowW 1, lowRowW 2, lowRowW 3] (by decide) rfl).2.2 rfl

lemma flatMap_congr {α β : Type} {l : List α} {f g : α → List β}
    (h : ∀ x ∈ l, f x = g x) : l.flatMap f = l.flatMap g := by
  induction l with
  | nil => rfl
  | cons a l ih =>
    simp only [List.flatMap_cons]
    rw [h a (by simp), ih (fun x hx => h x (by simp [hx]))]

lemma firstDedup_cons {α : Type} [DecidableEq α] (a : α) (l : List α) :
    firstDedup (a :: l) = a :: firstDedup (l.filter (fun x => decide (x ≠ a))) := by
  simp [firstDedup]

lemma mem_firstDedup {α : Type} [DecidableEq α] (a : α) (l : List α) :
    a ∈ firstDedup l ↔ a ∈ l := by
  generalize hn : l.length = n
  induction n using Nat.strong_induction_on generalizing l with
  | _ n ih =>
    cases l with
    | nil => simp [firstDedup]
    | cons b l =>
      rw [firstDedup_cons]
      have hlen : (l.filter (fun x => decide (x ≠ b))).length < n := by
        subst hn
        simp only [List.length_cons]
        exact Nat.lt_succ_of_le (List.length_filter_le _ _)
      have ihf := ih _ hlen (l.filter (fun x => decide (x ≠ b))) rfl
      by_cases hab : a = b
      · subst hab; simp
      · simp only [List.mem_cons, ihf, List.mem_filter]
        simp [hab]

lemma nodup_firstDedup {α : Type} [DecidableEq α] (l : List α) : (firstDedup l).Nodup := by
  generalize hn : l.length = n
  induction n using Nat.strong_induction_on generalizing l with
  | _ n ih =>
    cases l with
    | nil => simp [firstDedup]
    | cons b l =>
      rw [firstDedup_cons, List.nodup_cons]
      have hlen : (l.filter (fun x => decide (x ≠ b))).length < n := by
        subst hn
        simp only [List.length_cons]
        exact Nat.lt_succ_of_le (List.length_filter_le _ _)
      refine ⟨?_, ih _ hlen _ rfl⟩
      intro hmem
      rw [mem_firstDedup] at hmem
      exact absurd (List.mem_filter.mp hmem).2 (by simp)

lemma flatMap_filter_perm {α κ : Type} [DecidableEq κ] (key : α → κ) :
    ∀ (keys : List κ), keys.Nodup → ∀ (l : List α), (∀ x ∈ l, key x ∈ keys) →
    (keys.flatMap (fun k => l.filter (fun x => decide (key x = k)))).Perm l := by
  intro keys
  induction keys with
  | nil =>
    intro _ l hl
    have hempty : l = [] := by
      cases l with
      | nil => rfl
      | cons x l => exact absurd (hl x (by simp)) (by simp)
    simp [hempty]
  | cons k ks ih =>
    intro hnd l hl
    rw [List.nodup_cons] at hnd
    simp only [List.flatMap_cons]
    have hcongr : ks.flatMap (fun k2 => l.filter (fun x => decide (key x = k2))) =
        ks.flatMap (fun k2 => (l.filter (fun x => !decide (key x = k))).filter
          (fun x => decide (key x = k2))) := by
      apply flatMap_congr
      intro k2 hk2
      rw [List.filter_filter]
      apply List.filter_congr
      intro x _
      by_cases hx : key x = k
      · have hkk2 : ¬ k = k2 := fun h => hnd.1 (h ▸ hk2)
        simp [hx, hkk2]
      · simp [hx]
    rw [hcongr]
    have hsub : ∀ x ∈ l.filter (fun x => !decide (key x = k)), key x ∈ ks := by
      intro x hx
      rw [List.mem_filter] at hx
      have hmem := hl x hx.1
      simp only [List.mem_cons] at hmem
      rcases hmem with h | h
      · exact absurd h (by simpa using hx.2)
      · exact h
    exact (List.Perm.append_left _ (ih hnd.2 _ hsub)).trans (List.filter_append_perm _ l)

lemma progress_allScores_perm (contribs : List Contribution) :
    ((firstDedup (contribs.map (fun c => c.tag))).flatMap
      (fun t => tagBucket contribs t)).Perm (contribs.map (fun c => c.score)) := by
  have h1 : (firstDedup (contribs.map (fun c => c.tag))).flatMap
      (fun t => tagBucket contribs t) =
      ((firstDedup (contribs.map (fun c => c.tag))).flatMap
        (fun t => contribs.filter (fun c => decide (c.tag = t)))).map (fun c => c.score) := by
    rw [List.map_flatMap]
    rfl
  rw [h1]
  refine List.Perm.map _ ?_
  exact flatMap_filter_perm (fun c : Contribution => c.tag)
    (firstDedup (contribs.map (fun c => c.tag))) (nodup_firstDedup _) contribs
    (fun c hc => (mem_firstDedup c.tag _).mpr (List.mem_map_of_mem _ hc))

/-- C5: the skill-mastery list is sorted non-decreasing by mastery, each
entry's mastery is the 3-decimal-rounded mean of its tag's contributing
scores (with the matching sample count), and `overall_mastery_avg` is the
mean over all individual response-tag contributions — not the mean of the
per-tag means. -/
theorem C5_mastery_sorted_and_overall (class_id : ℕ) (rows : List Row) :
    List.Pairwise (fun a b => a.mastery ≤ b.mastery)
      (get_student_skill_mastery class_id rows).skill_mastery ∧
    (∀ e ∈ (get_student_skill_mastery class_id rows).skill_mastery,
      e.mastery = round3 ((tagBucket (progressContribs class_id rows) e.tag).sum /
        ((tagBucket (progressContribs class_id rows) e.tag).length : ℚ)) ∧
      e.samples = (tagBucket (progressContribs class_id rows) e.tag).length) ∧
    (get_student_skill_mastery class_id rows).total_responses =
      (progressContribs class_id rows).length ∧
    (progressContribs class_id rows ≠ [] →
      (get_student_skill_mastery class_id rows).overall_mastery_avg =
        round3 (((progressContribs class_id rows).map (fun c => c.score)).sum /
          ((progressContribs class_id rows).length : ℚ))) := by
  have hperm := progress_allScores_perm (progressContribs class_id rows)
  refine ⟨?_, ?_, ?_, ?_⟩
  · have hsorted := @List.sorted_mergeSort SkillEntry
      (fun a b : SkillEntry => decide (a.mastery ≤ b.mastery))
      (fun a b c hab hbc => by
        simp only [decide_eq_true_eq] at *
        exact le_trans hab hbc)
      (fun a b => by
        simp only [Bool.or_eq_true, decide_eq_true_eq]
        exact le_total a.mastery b.mastery)
      ((firstDedup ((progressContribs class_id rows).map (fun c => c.tag))).map
        (fun t => SkillEntry.mk t
          (round3 ((tagBucket (progressContribs class_id rows) t).sum /
            ((tagBucket (progressContribs class_id rows) t).length : ℚ)))
          (tagBucket (progressContribs class_id rows) t).length))
    have hshape : (get_student_skill_mastery class_id rows).skill_mastery =
        ((firstDedup ((progressContribs class_id rows).map (fun c => c.tag))).map
          (fun t => SkillEntry.mk t
            (round3 ((tagBucket (progressContribs class_id rows) t).sum /
              ((tagBucket (progressContribs class_id rows) t).length : ℚ)))
            (tagBucket (progressContribs class_id rows) t).length)).mergeSort
          (fun a b => decide (a.mastery ≤ b.mastery)) := rfl
    rw [hshape]
    exact hsorted.imp (fun h => of_decide_eq_true h)
  · intro e he
    have hshape : (get_student_skill_mastery class_id rows).skill_mastery =
        ((firstDedup ((progressContribs class_id rows).map (fun c => c.tag))).map
          (fun t => SkillEntry.mk t
            (round3 ((tagBucket (progressContribs class_id rows) t).sum /
              ((tagBucket (progressContribs class_id rows) t).length : ℚ)))
            (tagBucket (progressContribs class_id rows) t).length)).mergeSort
          (fun a b => decide (a.mastery ≤ b.mastery)) := rfl
    rw [hshape, List.mem_mergeSort, List.mem_map] at he
    obtain ⟨t, _, rfl⟩ := he
    exact ⟨rfl, rfl⟩
  · have hshape : (get_student_skill_mastery class_id rows).total_responses =
        ((firstDedup ((progressContribs class_id rows).map (fun c => c.tag))).flatMap
          (fun t => tagBucket (progressContribs class_id rows) t)).length := rfl
    rw [hshape, hperm.length_eq, List.length_map]
  · intro hne
    have hshape : (get_student_skill_mastery class_id rows).overall_mastery_avg =
        round3 (if ((firstDedup ((progressContribs class_id rows).map (fun c => c.tag))).flatMap
            (fun t => tagBucket (progressContribs class_id rows) t)).length = 0 then 0
          else ((firstDedup ((progressContribs class_id rows).map (fun c => c.tag))).flatMap
            (fun t => tagBucket (progressContribs class_id rows) t)).sum /
            (((firstDedup ((progressContribs class_id rows).map (fun c => c.tag))).flatMap
              (fun t => tagBucket (progressContribs class_id rows) t)).length : ℚ)) := rfl
    rw [hshape]
    have hlen : ((firstDedup ((progressContribs class_id rows).map (fun c => c.tag))).flatMap
        (fun t => tagBucket (progressContribs class_id rows) t)).length =
        (progressContribs class_id rows).length := by
      rw [hperm.length_eq, List.length_map]
    have hlenne : ((firstDedup ((progressContribs class_id rows).map (fun c => c.tag))).flatMap
        (fun t => tagBucket (progressContribs class_id rows) t)).length ≠ 0 := by
      rw [hlen]
      exact fun h0 => hne (List.length_eq_zero.mp h0)
    rw [if_neg hlenne, hperm.sum_eq, hlen]

theorem C5_mastery_sorted_and_overall_witness :
    progressContribs 1 [⟨1, ⟨1, "x", some (1 / 2), none, none, none⟩,
        ⟨1, "short", "p", none, ["t"]⟩, 1, "A"⟩] ≠ [] ∧
    (get_student_skill_mastery 1 [⟨1, ⟨1, "x", some (1 / 2), none, none, none⟩,
        ⟨1, "short", "p", none, ["t"]⟩, 1, "A"⟩]).overall_mastery_avg =
      round3 (((progressContribs 1 [⟨1, ⟨1, "x", some (1 / 2), none, none, none⟩,
        ⟨1, "short", "p", none, ["t"]⟩, 1, "A"⟩]).map (fun c => c.score)).sum /
        ((progressContribs 1 [⟨1, ⟨1, "x", some (1 / 2), none, none, none⟩,
          ⟨1, "short", "p", none, ["t"]⟩, 1, "A"⟩]).length : ℚ)) := by
  have hne : progressContribs 1 [⟨1, ⟨1, "x", some (1 / 2), none, none, none⟩,
      ⟨1, "short", "p", none, ["t"]⟩, 1, "A"⟩] ≠ [] := by
    simp [progressContribs, progressScore]
  exact ⟨hne, (C5_mastery_sorted_and_overall 1 [⟨1, ⟨1, "x", some (1 / 2), none, none, none⟩,
    ⟨1, "short", "p", none, ["t"]⟩, 1, "A"⟩]).2.2.2 hne⟩

/-- A single-row student history used to separate the two mastery
computations: one short-answer response in class 1 with automated score 50
(the 0–100 storage convention) on a question tagged `"t"`. -/
def rowW : Row :=
  ⟨1, ⟨1, "ans", some 50, none, none, none⟩, ⟨1, "short", "p", none, ["t"]⟩, 1, "A"⟩

/-- C3, counterexample: on the same stored data, the ranker's
`compute_skill_mastery` (`recommendations.py`) yields mastery `0.5` for tag
`"t"` (it divides the effective score by 100), while the §4.4 aggregator
(`progress.py`) yields `50` (it uses the stored score as is); the two
per-tag mastery values are not equal. -/
theorem C3_counterexample :
    compute_skill_mastery [rowW] "t" = some (1 / 2) ∧
    progressMastery 1 [rowW] "t" = some 50 ∧
    compute_skill_mastery [rowW] "t" ≠ progressMastery 1 [rowW] "t" := by
  have h1 : compute_skill_mastery [rowW] "t" = some (1 / 2) := by
    simp [compute_skill_mastery, recContribs, tagBucket, rowW, effectiveScore]
    norm_num
  have h2 : progressMastery 1 [rowW] "t" = some 50 := by
    have hcontribs : progressContribs 1 [rowW] = [⟨"t", 50⟩] := by
      simp [progressContribs, progressScore, rowW]
    simp only [progressMastery, get_student_skill_mastery, hcontribs]
    norm_num [firstDedup, tagBucket, List.mergeSort, List.find?, round3]
  refine ⟨h1, h2, ?_⟩
  rw [h1, h2]
  intro h
  have := Option.some.inj h
  norm_num at this

lemma progressScore_eq_effective (q : Question) (r : Response) (h : q.qtype ≠ "mcq") :
    progressScore q r = effectiveScore r := by
  simp only [progressScore, if_neg h, effectiveScore]

lemma tagBucket_append (c1 c2 : List Contribution) (tag : String) :
    tagBucket (c1 ++ c2) tag = tagBucket c1 tag ++ tagBucket c2 tag := by
  simp [tagBucket, List.filter_append]

lemma tagBucket_const (tags : List String) (s : ℚ) (tag : String) :
    tagBucket (tags.map (fun t => Contribution.mk t s)) tag =
      List.replicate (tags.filter (fun t => decide (t = tag))).length s := by
  simp [tagBucket, List.filter_map, Function.comp_def]

lemma progressContribs_cons (cid : ℕ) (row : Row) (rest : List Row)
    (hrow : row.class_id = cid) :
    progressContribs cid (row :: rest) =
      (match progressScore row.question row.response with
       | some s => row.question.skill_tags.map (fun t => Contribution.mk t s)
       | none => []) ++ progressContribs cid rest := by
  simp [progressContribs, List.filter_cons, hrow]

lemma recContribs_cons (row : Row) (rest : List Row) :
    recContribs (row :: rest) =
      (if row.question.skill_tags = [] then []
       else
         match effectiveScore row.response with
         | none => []
         | some s => row.question.skill_tags.map (fun t => Contribution.mk t (s / 100))) ++
      recContribs rest := by
  simp [recContribs, List.flatMap_cons]

/-- Under class-uniform, all-short-answer data, the §4.4 per-tag score
bucket is the ranker's bucket rescaled by 100. -/
lemma bucket_scale (cid : ℕ) (rows : List Row) (tag : String)
    (hclass : ∀ row ∈ rows, row.class_id = cid)
    (hshort : ∀ row ∈ rows, row.question.qtype ≠ "mcq") :
    tagBucket (progressContribs cid rows) tag =
      (tagBucket (recContribs rows) tag).map (fun s => s * 100) := by
  induction rows with
  | nil => rfl
  | cons row rest ih =>
    have hrow := hclass row (by simp)
    have hq := hshort row (by simp)
    rw [progressContribs_cons cid row rest hrow, recContribs_cons row rest,
      tagBucket_append, tagBucket_append,
      ih (fun r hr => hclass r (by simp [hr])) (fun r hr => hshort r (by simp [hr])),
      List.map_append]
    congr 1
    rw [progressScore_eq_effective row.question row.response hq]
    rcases heff : effectiveScore row.response with _ | s
    · rcases htags : row.question.skill_tags with _ | ⟨t0, ts⟩ <;> simp [tagBucket]
    · rcases htags : row.question.skill_tags with _ | ⟨t0, ts⟩
      · simp [tagBucket]
      · rw [if_neg (by simp)]
        rw [tagBucket_const, tagBucket_const, List.map_replicate]
        rw [div_mul_cancel₀ s (by norm_num : (100 : ℚ) ≠ 0)]

/-- C3 (amended): step 1 of the ranker computes its own per-tag mastery:
the mean of effective scores divided by 100 over ALL of the student's
responses in every class, with no MCQ binarisation and no rounding, so it
does not in general equal the §4.4 aggregator's per-tag values; on
single-class, all-short-answer data the §4.4 mastery is exactly the
ranker's mastery rescaled by 100 and rounded to 3 decimals. -/
theorem C3_ranker_vs_aggregator_mastery (cid : ℕ) (rows : List Row) (tag : String) (m : ℚ)
    (hclass : ∀ row ∈ rows, row.class_id = cid)
    (hshort : ∀ row ∈ rows, row.question.qtype ≠ "mcq")
    (hm : compute_skill_mastery rows tag = some m) :
    progressMastery cid rows tag = some (round3 (100 * m)) := by
  have hb := bucket_scale cid rows tag hclass hshort
  by_cases h0 : (tagBucket (recContribs rows) tag).length = 0
  · simp [compute_skill_mastery, h0] at hm
  · have hm2 : m = (tagBucket (recContribs rows) tag).sum /
        ((tagBucket (recContribs rows) tag).length : ℚ) := by
      have := hm
      simp only [compute_skill_mastery, if_neg h0] at this
      exact (Option.some.inj this).symm
    -- the progress-side bucket is nonempty, so the tag appears among the keys
    have hplen : (tagBucket (progressContribs cid rows) tag).length =
        (tagBucket (recContribs rows) tag).length := by
      rw [hb, List.length_map]
    have hpne : tagBucket (progressContribs cid rows) tag ≠ [] := by
      intro he
      rw [he] at hplen
      exact h0 hplen.symm
    have hex : ∃ c ∈ progressContribs cid rows, c.tag = tag := by
      rcases hbne : tagBucket (progressContribs cid rows) tag with _ | ⟨x, xs⟩
      · exact absurd hbne hpne
      · have : (progressContribs cid rows).filter (fun c => decide (c.tag = tag)) ≠ [] := by
          intro hf
          rw [tagBucket, hf] at hbne
          exact List.cons_ne_nil x xs hbne.symm
        rcases hf2 : (progressContribs cid rows).filter (fun c => decide (c.tag = tag)) with
          _ | ⟨c, cs⟩
        · exact absurd hf2 this
        · have hcmem : c ∈ (progressContribs cid rows).filter (fun c => decide (c.tag = tag)) := by
            rw [hf2]; exact List.mem_cons_self c cs
          rw [List.mem_filter] at hcmem
          exact ⟨c, hcmem.1, of_decide_eq_true hcmem.2⟩
    obtain ⟨c, hcmem, hctag⟩ := hex
    have hkey : tag ∈ firstDedup ((progressContribs cid rows).map (fun c => c.tag)) :=
      (mem_firstDedup tag _).mpr (hctag ▸ List.mem_map_of_mem (fun c => c.tag) hcmem)
    -- the sorted entry list contains an entry for the tag
    have hentry : SkillEntry.mk tag
        (round3 ((tagBucket (progressContribs cid rows) tag).sum /
          ((tagBucket (progressContribs cid rows) tag).length : ℚ)))
        (tagBucket (progressContribs cid rows) tag).length ∈
        (get_student_skill_mastery cid rows).skill_mastery := by
      have hshape : (get_student_skill_mastery cid rows).skill_mastery =
          ((firstDedup ((progressContribs cid rows).map (fun c => c.tag))).map
            (fun t => SkillEntry.mk t
              (round3 ((tagBucket (progressContribs cid rows) t).sum /
                ((tagBucket (progressContribs cid rows) t).length : ℚ)))
              (tagBucket (progressContribs cid rows) t).length)).mergeSort
            (fun a b => decide (a.mastery ≤ b.mastery)) := rfl
      rw [hshape, List.mem_mergeSort]
      exact List.mem_map_of_mem _ hkey
    have hfind : ((get_student_skill_mastery cid rows).skill_mastery.find?
        (fun e => e.tag = tag)).isSome := by
      rw [List.find?_isSome]
      exact ⟨_, hentry, by simp⟩
    obtain ⟨e, he⟩ := Option.isSome_iff_exists.mp hfind
    have hps := List.find?_some he
    have hetag : e.tag = tag := of_decide_eq_true hps
    have hemem := List.mem_of_find?_eq_some he
    -- every entry of the result with this tag carries the bucket mean
    have hmast : e.mastery = round3 ((tagBucket (progressContribs cid rows) tag).sum /
        ((tagBucket (progressContribs cid rows) tag).length : ℚ)) := by
      have hshape : (get_student_skill_mastery cid rows).skill_mastery =
          ((firstDedup ((progressContribs cid rows).map (fun c => c.tag))).map
            (fun t => SkillEntry.mk t
              (round3 ((tagBucket (progressContribs cid rows) t).sum /
                ((tagBucket (progressContribs cid rows) t).length : ℚ)))
              (tagBucket (progressContribs cid rows) t).length)).mergeSort
            (fun a b => decide (a.mastery ≤ b.mastery)) := rfl
      rw [hshape, List.mem_mergeSort, List.mem_map] at hemem
      obtain ⟨t, _, rfl⟩ := hemem
      simp only at hetag
      rw [hetag]
    have hmean : (tagBucket (progressContribs cid rows) tag).sum /
        ((tagBucket (progressContribs cid rows) tag).length : ℚ) = 100 * m := by
      rw [hb, List.length_map]
      have hsum : ((tagBucket (recContribs rows) tag).map (fun s => s * 100)).sum =
          (tagBucket (recContribs rows) tag).sum * 100 := by
        simpa using List.sum_map_mul_right (tagBucket (recContribs rows) tag) id 100
      rw [hsum, hm2]
      field_simp
      ring
    simp only [progressMastery, he]
    simp [hmast, hmean]

theorem C3_ranker_vs_aggregator_mastery_witness :
    ((∀ row ∈ [rowW], row.class_id = 1) ∧ (∀ row ∈ [rowW], row.question.qtype ≠ "mcq") ∧
      compute_skill_mastery [rowW] "t" = some (1 / 2)) ∧
    progressMastery 1 [rowW] "t" = some (round3 (100 * (1 / 2))) := by
  have hm : compute_skill_mastery [rowW] "t" = some (1 / 2) := by
    simp [compute_skill_mastery, recContribs, tagBucket, rowW, effectiveScore]
    norm_num
  exact ⟨⟨by decide, by decide, hm⟩,
    C3_ranker_vs_aggregator_mastery 1 [rowW] "t" (1 / 2) (by decide) (by decide) hm⟩

end K12
